import Mathlib

/-!
Verification of the resume relevance checker's scoring and analysis pipeline.

This file gives a shallow embedding, in Lean 4, of the core scoring modules
(`scoring.py`, `skill_extractor.py`, `embeddings.py`, `resume_comparator.py`)
and proves the specified properties about them.

Modelling conventions, used throughout:

* Python floats are modelled as exact rationals (`ℚ`); the two places where a
  square root occurs (cosine similarity, standard deviation) use `ℝ`.
* Python strings are Lean `String`s; the source only manipulates ASCII text,
  and the case-folding helpers are faithful on ASCII.
* A Python dict of skill lists (`jd_skills`) is modelled as an association
  list `List (String × List String)`; `pyGet` models `dict.get(k, [])`, and
  the truthiness test `not jd_skills` is emptiness of the association list.
* `list(set(xs))` is modelled by `List.dedup`.  CPython's set iteration order
  is unspecified; no verified claim depends on the particular order, only on
  membership and on counts, which `dedup` preserves.
* External effects (the Grok AI service, the sentence-transformers model, the
  scikit-learn TF-IDF/SVD pipeline) are modelled as oracle parameters, since
  their numeric output is produced by collaborators outside the repository.
* A `try/except` whose body is pure total code cannot take its handler branch
  and is modelled by the body alone; a `try/except` whose body performs
  external calls (or whose handler the claims are about) gets an explicit
  Boolean fault parameter meaning "some exception was raised inside the try
  body", in which case the function returns exactly what the handler returns.
-/

/-! ## Python string primitives -/

/-- Python `str.lower()` (faithful on ASCII, which is all the source uses). -/
def pyLower (s : String) : String := ⟨s.data.map Char.toLower⟩

/-- Helper for `pyTitle`: the Boolean records whether the previous character
was a cased (alphabetic) one. -/
def pyTitleAux : Bool → List Char → List Char
  | _, [] => []
  | prevAlpha, c :: rest =>
    (if c.isAlpha then (if prevAlpha then c.toLower else c.toUpper) else c)
      :: pyTitleAux c.isAlpha rest

/-- Python `str.title()`: the first letter of every maximal run of alphabetic
characters is uppercased, the rest lowercased (ASCII-faithful). -/
def pyTitle (s : String) : String := ⟨pyTitleAux false s.data⟩

/-- Contiguous-sublist test on character lists, modelling Python's
`needle in hay` substring operator. -/
def listHasSub (needle : List Char) : List Char → Bool
  | [] => needle.isEmpty
  | c :: rest => needle.isPrefixOf (c :: rest) || listHasSub needle rest

/-- Python `sub in hay` on strings. -/
def strContainsStr (hay sub : String) : Bool := listHasSub sub.data hay.data

/-- Characters Python's `str.strip()` removes (ASCII whitespace). -/
def isPySpace (c : Char) : Bool :=
  c = ' ' || c = '\t' || c = '\n' || c = '\r' || c = '\x0b' || c = '\x0c'

/-- Python truthiness test `not s or not s.strip()` for a string. -/
def pyBlank (s : String) : Bool := s.data.all isPySpace

/-- Python's `round` (banker's rounding, round-half-to-even) to an integer. -/
def pyRoundHalfEven (x : ℚ) : ℤ :=
  let n := ⌊x⌋
  let frac := x - n
  if frac < 1 / 2 then n
  else if 1 / 2 < frac then n + 1
  else if Even n then n else n + 1

/-- Python's `round(x, 2)` on our exact-rational model of floats. -/
def pyRound2 (x : ℚ) : ℚ := (pyRoundHalfEven (100 * x) : ℚ) / 100

/-! ## Dict model -/

/-- Model of the `jd_skills` dict: an association list from keys to lists of
skill strings. -/
abbrev PyDict := List (String × List String)

/-- Python `d.get(k, [])` on the association-list model. -/
def pyGet (d : PyDict) (k : String) : List String :=
  match List.find? (fun p => p.1 == k) d with
  | some p => p.2
  | none => []

/-! ## Skill catalog (`TECH_SKILLS_DB` in `skill_extractor.py`) -/

/-- Static skill taxonomy, category by category, in the source's (insertion)
order.  Dict iteration order in Python 3.7+ is insertion order. -/
def TECH_SKILLS_DB : List (String × List String) :=
  [ ("programming",
      ["python", "java", "javascript", "typescript", "c++", "c#", "go", "rust", "php", "ruby",
       "swift", "kotlin", "scala", "r", "matlab", "sql", "html", "css", "react", "angular",
       "vue", "node.js", "django", "flask", "spring", "express", "laravel", "rails"]),
    ("databases",
      ["mysql", "postgresql", "mongodb", "redis", "elasticsearch", "cassandra", "dynamodb",
       "sqlite", "oracle", "sql server", "neo4j", "influxdb"]),
    ("cloud",
      ["aws", "azure", "gcp", "docker", "kubernetes", "terraform", "ansible", "jenkins",
       "gitlab ci", "github actions", "cloudformation", "serverless", "lambda"]),
    ("data_science",
      ["machine learning", "deep learning", "nlp", "computer vision", "pandas", "numpy",
       "scikit-learn", "tensorflow", "pytorch", "keras", "spark", "hadoop", "kafka",
       "airflow", "jupyter", "matplotlib", "seaborn", "plotly"]),
    ("tools",
      ["git", "github", "gitlab", "jira", "confluence", "slack", "teams", "figma", "sketch",
       "postman", "swagger", "docker", "kubernetes", "vagrant", "virtualbox"]),
    ("methodologies",
      ["agile", "scrum", "kanban", "devops", "ci/cd", "tdd", "bdd", "microservices",
       "rest api", "graphql", "soa", "mvc", "mvp", "mvvm"]) ]

/-- Model of Python's `list(set(xs))`: duplicate removal.  The iteration order
of a CPython set is unspecified; `List.dedup` is the deterministic
representative used here, and no verified claim depends on the order. -/
def pySetList (l : List String) : List String := l.dedup

/-! ## Resume skill extraction (`extract_skills_from_resume`) -/

/-- Embedding of `skill_extractor.extract_skills_from_resume`: catalog skills
whose lowercase form occurs as a substring of the lowercased resume text,
title-cased and deduplicated.  The function is pure and total (the source has
no exception handler here and its body cannot raise on a string input). -/
def extract_skills_from_resume (resume_text : String) : List String :=
  if resume_text = "" then []
  else
    let text_lower := pyLower resume_text
    let mentioned :=
      (TECH_SKILLS_DB.map (fun cat =>
        cat.2.filterMap (fun skill =>
          if strContainsStr text_lower (pyLower skill) then some (pyTitle skill) else none))).flatten
    pySetList mentioned

/-! ## Skill matching (`calculate_skill_match`) -/

/-- Result record of `calculate_skill_match`. -/
structure SkillMatchStats where
  must_have_matches : List String
  good_to_have_matches : List String
  missing_must_have : List String
  missing_good_to_have : List String
  must_have_score : ℚ
  good_to_have_score : ℚ
deriving Repr, DecidableEq

/-- Embedding of `skill_extractor.calculate_skill_match`: both the JD lists
and the resume skills are lowercased before comparison; scores are match
fractions, 0 for an empty list. -/
def calculate_skill_match (resume_skills : List String) (jd_skills : PyDict) : SkillMatchStats :=
  let must_have := (pyGet jd_skills "must_have").map pyLower
  let good_to_have := (pyGet jd_skills "good_to_have").map pyLower
  let resume_skills_lower := resume_skills.map pyLower
  let must_have_matches := must_have.filter (fun s => resume_skills_lower.contains s)
  let good_to_have_matches := good_to_have.filter (fun s => resume_skills_lower.contains s)
  let missing_must_have := must_have.filter (fun s => !resume_skills_lower.contains s)
  let missing_good_to_have := good_to_have.filter (fun s => !resume_skills_lower.contains s)
  ⟨must_have_matches, good_to_have_matches, missing_must_have, missing_good_to_have,
    (if must_have = [] then 0 else (must_have_matches.length : ℚ) / must_have.length),
    (if good_to_have = [] then 0 else (good_to_have_matches.length : ℚ) / good_to_have.length)⟩

/-! ## Scoring core (`scoring.py`) -/

/-- Embedding of `scoring.calculate_hard_match_score`.  The guard models
Python's `if not resume_text or not jd_skills: return 0.0`; the body is pure
and total, so the broad exception handler (returning 0.0) is unreachable and
not modelled. -/
def calculate_hard_match_score (resume_text : String) (jd_skills : PyDict) : ℚ :=
  if resume_text = "" ∨ jd_skills = [] then 0
  else
    let resume_skills := extract_skills_from_resume resume_text
    let match_stats := calculate_skill_match resume_skills jd_skills
    let must_have_score := match_stats.must_have_score * 100
    let good_to_have_score := match_stats.good_to_have_score * 100
    min 100 (max 0 ((0.7 : ℚ) * must_have_score + (0.3 : ℚ) * good_to_have_score))

/-- Embedding of `scoring.find_missing_skills`: the unmatched must-have
entries; when fewer than 3, up to 3 unmatched good-to-have entries are
appended; the result is truncated to 5.  As in `calculate_hard_match_score`,
the body is pure and the exception handler (returning `[]`) is unreachable. -/
def find_missing_skills (resume_text : String) (jd_skills : PyDict) : List String :=
  if resume_text = "" ∨ jd_skills = [] then []
  else
    let resume_skills := extract_skills_from_resume resume_text
    let match_stats := calculate_skill_match resume_skills jd_skills
    let missing := match_stats.missing_must_have
    let missing2 :=
      if missing.length < 3 then missing ++ match_stats.missing_good_to_have.take 3
      else missing
    missing2.take 5

/-- Embedding of `scoring.determine_verdict`. -/
def determine_verdict (final_score : ℚ) : String :=
  if 75 ≤ final_score then "High"
  else if 45 ≤ final_score then "Medium"
  else "Low"

/-- Result record of `calculate_relevance_score`. -/
structure ScoreResult where
  hard_pct : ℚ
  soft_pct : ℚ
  final_score : ℚ
  verdict : String
  missing_skills : List String
  hard_weight : ℚ
  soft_weight : ℚ
deriving Repr, DecidableEq

/-- Embedding of `scoring.calculate_soft_match_score`.  After the emptiness
guard the value is produced by the semantic-similarity provider (embeddings
plus cosine similarity, or the TF-IDF fallback), an external numeric
capability modelled by the oracle `softSim`; the provider absorbs all of its
own exceptions, so this function is total for any oracle. -/
def calculate_soft_match_score (softSim : String → String → ℚ)
    (jd_text resume_text : String) : ℚ :=
  if jd_text = "" ∨ resume_text = "" then 0
  else softSim jd_text resume_text

/-- Embedding of `scoring.calculate_relevance_score`.  `raised` models "some
exception was raised inside the try body", in which case the source's handler
returns the all-zero `Low` result with the weights echoed; otherwise the try
body runs to completion. -/
def calculate_relevance_score (softSim : String → String → ℚ) (raised : Bool)
    (jd_text resume_text : String) (jd_skills : PyDict)
    (hard_weight soft_weight : ℚ) : ScoreResult :=
  if raised then
    ⟨0, 0, 0, "Low", [], hard_weight, soft_weight⟩
  else
    let hard_score := calculate_hard_match_score resume_text jd_skills
    let soft_score := calculate_soft_match_score softSim jd_text resume_text
    let final_score := pyRound2 (hard_weight * hard_score + soft_weight * soft_score)
    ⟨hard_score, soft_score, final_score, determine_verdict final_score,
      find_missing_skills resume_text jd_skills, hard_weight, soft_weight⟩

/-! ## Spec-side definitions for the scoring claims -/

/-- Spec-side coverage, following the claim's wording: the fraction of the JD
list's entries found (case-insensitively) among the extracted resume skills,
and 0 when the list is empty. -/
def coverageSpec (jdList : List String) (resumeSkills : List String) : ℚ :=
  if jdList = [] then 0
  else (jdList.countP (fun e => (resumeSkills.map pyLower).contains (pyLower e)) : ℚ) / jdList.length

/-- Spec-side missing-skills list, following the claim's wording: all
unmatched must-have entries in order, then, only when these number fewer than
3, up to 3 unmatched good-to-have entries, the whole truncated to 5 (entries
compared and reported in case-folded form). -/
def missingSkillsSpec (resume_text : String) (jd_skills : PyDict) : List String :=
  let resumeLower := (extract_skills_from_resume resume_text).map pyLower
  let mm := ((pyGet jd_skills "must_have").map pyLower).filter (fun s => !resumeLower.contains s)
  let mg := ((pyGet jd_skills "good_to_have").map pyLower).filter (fun s => !resumeLower.contains s)
  (if mm.length < 3 then mm ++ mg.take 3 else mm).take 5

/-! ## Helper lemmas -/

/-- Rounding zero gives zero. -/
lemma pyRound2_zero : pyRound2 0 = 0 := by
  simp [pyRound2, pyRoundHalfEven]

/-- Length of the lowered-and-filtered match list, as a `countP` over the
original JD list. -/
lemma filter_lower_length (l rsl : List String) :
    ((l.map pyLower).filter (fun s => rsl.contains s)).length
      = l.countP (fun e => rsl.contains (pyLower e)) := by
  rw [← List.countP_eq_length_filter, List.countP_map]
  rfl

/-- The two match-fraction fields of `calculate_skill_match` agree with the
spec-side coverage fractions. -/
lemma calculate_skill_match_scores (rs : List String) (d : PyDict) :
    (calculate_skill_match rs d).must_have_score
        = coverageSpec (pyGet d "must_have") (rs) ∧
    (calculate_skill_match rs d).good_to_have_score
        = coverageSpec (pyGet d "good_to_have") (rs) := by
  simp only [calculate_skill_match, coverageSpec]
  constructor
  · by_cases h : pyGet d "must_have" = []
    · simp [h]
    · rw [if_neg (show ¬ List.map pyLower (pyGet d "must_have") = [] by simpa using h),
        if_neg h, filter_lower_length, List.length_map]
  · by_cases h : pyGet d "good_to_have" = []
    · simp [h]
    · rw [if_neg (show ¬ List.map pyLower (pyGet d "good_to_have") = [] by simpa using h),
        if_neg h, filter_lower_length, List.length_map]

/-- An empty dict has no entries. -/
lemma pyGet_nil (k : String) : pyGet [] k = [] := rfl

/-! ## Claim C1 -/

/-- C1: for every input (and whether or not the internal exception handler
fires), the `ScoreResult` returned by `calculate_relevance_score` satisfies
`final_score = round(hard_weight * hard_pct + soft_weight * soft_pct, 2)`,
where `hard_pct` and `soft_pct` are fields of the same result. -/
theorem c1_final_score_weighted_round (softSim : String → String → ℚ) (raised : Bool)
    (jd_text resume_text : String) (jd_skills : PyDict) (hard_weight soft_weight : ℚ) :
    (calculate_relevance_score softSim raised jd_text resume_text jd_skills hard_weight soft_weight).final_score
      = pyRound2 (hard_weight *
            (calculate_relevance_score softSim raised jd_text resume_text jd_skills hard_weight soft_weight).hard_pct
          + soft_weight *
            (calculate_relevance_score softSim raised jd_text resume_text jd_skills hard_weight soft_weight).soft_pct) := by
  cases raised with
  | true =>
      simp only [calculate_relevance_score, if_true]
      rw [show hard_weight * (0 : ℚ) + soft_weight * 0 = 0 by ring, pyRound2_zero]
  | false => rfl

/-! ## Claim C2 -/

/-- C2: the verdict is a pure function of `final_score`: `High` iff the score
is at least 75, `Medium` iff it is in `[45, 75)`, `Low` iff it is below 45;
in particular 75 maps to High, 74.99 to Medium, 45 to Medium, 44.99 to Low. -/
theorem c2_verdict_thresholds (s : ℚ) :
    (determine_verdict s = "High" ↔ 75 ≤ s) ∧
    (determine_verdict s = "Medium" ↔ 45 ≤ s ∧ s < 75) ∧
    (determine_verdict s = "Low" ↔ s < 45) ∧
    determine_verdict (75 : ℚ) = "High" ∧
    determine_verdict (74.99 : ℚ) = "Medium" ∧
    determine_verdict (45 : ℚ) = "Medium" ∧
    determine_verdict (44.99 : ℚ) = "Low" := by
  refine ⟨?_, ?_, ?_, by norm_num [determine_verdict], by norm_num [determine_verdict],
    by norm_num [determine_verdict], by norm_num [determine_verdict]⟩
  · unfold determine_verdict
    split_ifs with h1 h2 <;> simp_all
  · unfold determine_verdict
    split_ifs with h1 h2 <;> simp_all
  · unfold determine_verdict
    split_ifs with h1 h2 <;> simp_all
    all_goals linarith

/-! ## Claim C3 -/

/-- C3: for non-empty resume text and a JD skill dict with a non-empty
must-have list, the hard-match score is
`100 * (0.7 * must_have_coverage + 0.3 * good_to_have_coverage)` clamped to
`[0, 100]`, where each coverage is the fraction of the respective JD list's
entries found case-insensitively among the extracted resume skills (0 for an
empty list). -/
theorem c3_hard_match_coverage_formula (resume_text : String) (jd_skills : PyDict)
    (hr : resume_text ≠ "") (hm : pyGet jd_skills "must_have" ≠ []) :
    calculate_hard_match_score resume_text jd_skills
      = min 100 (max 0 (100 *
          ((0.7 : ℚ) * coverageSpec (pyGet jd_skills "must_have") (extract_skills_from_resume resume_text)
            + (0.3 : ℚ) * coverageSpec (pyGet jd_skills "good_to_have") (extract_skills_from_resume resume_text)))) := by
  have hd : jd_skills ≠ [] := by
    intro h
    rw [h, pyGet_nil] at hm
    exact hm rfl
  simp only [calculate_hard_match_score]
  rw [if_neg (by simp [hr, hd])]
  obtain ⟨h1, h2⟩ := calculate_skill_match_scores (extract_skills_from_resume resume_text) jd_skills
  rw [h1, h2]
  have e : ∀ a b : ℚ, (0.7 : ℚ) * (a * 100) + (0.3 : ℚ) * (b * 100) = 100 * ((0.7 : ℚ) * a + (0.3 : ℚ) * b) :=
    fun a b => by ring
  rw [e]

/-- C3 witness: on the claim's own example (must-have Python and SQL,
good-to-have AWS, resume mentioning only Python) the hypotheses hold, the
formula applies, and the hard-match score is 35. -/
theorem c3_hard_match_witness :
    ("python" : String) ≠ "" ∧
    pyGet [("must_have", ["Python", "SQL"]), ("good_to_have", ["AWS"])] "must_have" ≠ [] ∧
    calculate_hard_match_score "python" [("must_have", ["Python", "SQL"]), ("good_to_have", ["AWS"])]
      = min 100 (max 0 (100 *
          ((0.7 : ℚ) * coverageSpec (pyGet [("must_have", ["Python", "SQL"]), ("good_to_have", ["AWS"])] "must_have")
              (extract_skills_from_resume "python")
            + (0.3 : ℚ) * coverageSpec (pyGet [("must_have", ["Python", "SQL"]), ("good_to_have", ["AWS"])] "good_to_have")
              (extract_skills_from_resume "python")))) ∧
    calculate_hard_match_score "python" [("must_have", ["Python", "SQL"]), ("good_to_have", ["AWS"])] = 35 := by
  refine ⟨by decide, by decide,
    c3_hard_match_coverage_formula "python" _ (by decide) (by decide), ?_⟩
  simp only [calculate_hard_match_score]
  rw [if_neg (by decide)]
  rw [show extract_skills_from_resume "python" = ["Python"] from by decide]
  simp only [calculate_skill_match]
  rw [show (pyGet [("must_have", ["Python", "SQL"]), ("good_to_have", ["AWS"])] "must_have").map pyLower
      = ["python", "sql"] from by decide]
  rw [show (pyGet [("must_have", ["Python", "SQL"]), ("good_to_have", ["AWS"])] "good_to_have").map pyLower
      = ["aws"] from by decide]
  rw [show List.filter (fun s => (["Python"].map pyLower).contains s) ["python", "sql"] = ["python"] from by decide]
  rw [show List.filter (fun s => (["Python"].map pyLower).contains s) ["aws"] = ([] : List String) from by decide]
  rw [if_neg (by decide), if_neg (by decide)]
  norm_num

/-! ## Claim C4 -/

/-- C4 counterexample: the claim fails for empty resume text.  With
`resume_text = ""` and one must-have skill `"python"`, the source's guard
returns `[]`, while the claimed description (all unmatched must-have entries,
etc.) yields `["python"]`. -/
theorem c4_counterexample :
    find_missing_skills "" [("must_have", ["python"])]
      ≠ missingSkillsSpec "" [("must_have", ["python"])] := by decide

/-- C4 amended: for every NON-EMPTY resume text (and any JD skill dict), the
missing-skills list is exactly the unmatched must-have entries in order,
with up to 3 unmatched good-to-have entries appended only when there are
fewer than 3 of the former, truncated to 5 in total, must-have gaps first
(entries reported in case-folded form). -/
theorem c4_missing_skills_amended (resume_text : String) (jd_skills : PyDict)
    (h : resume_text ≠ "") :
    find_missing_skills resume_text jd_skills = missingSkillsSpec resume_text jd_skills := by
  unfold find_missing_skills missingSkillsSpec
  by_cases hd : jd_skills = []
  · rw [if_pos (Or.inr hd), hd]
    simp [pyGet_nil]
  · rw [if_neg (by simp [h, hd])]
    rfl

/-- C4 witness: the amended theorem applied at a concrete input, whose
missing-skill list is `["sql", "aws", "docker", "git"]`. -/
theorem c4_missing_skills_witness :
    ("python" : String) ≠ "" ∧
    find_missing_skills "python"
        [("must_have", ["Python", "SQL"]), ("good_to_have", ["AWS", "Docker", "Git", "Jira"])]
      = missingSkillsSpec "python"
        [("must_have", ["Python", "SQL"]), ("good_to_have", ["AWS", "Docker", "Git", "Jira"])] ∧
    find_missing_skills "python"
        [("must_have", ["Python", "SQL"]), ("good_to_have", ["AWS", "Docker", "Git", "Jira"])]
      = ["sql", "aws", "docker", "git"] := by
  exact ⟨by decide, c4_missing_skills_amended "python" _ (by decide), by decide⟩

/-! ## Claim C6 -/

/-- C6: when any internal exception occurs inside
`calculate_relevance_score` (the `raised` fault event), the function still
returns normally — no exception propagates, since the embedding is a total
function for every oracle and fault value — and the returned result is
exactly `hard_pct = 0`, `soft_pct = 0`, `final_score = 0`, verdict `"Low"`,
`missing_skills = []`, with the weights echoed. -/
theorem c6_exception_returns_zero_result (softSim : String → String → ℚ)
    (jd_text resume_text : String) (jd_skills : PyDict) (hard_weight soft_weight : ℚ) :
    calculate_relevance_score softSim true jd_text resume_text jd_skills hard_weight soft_weight
      = ⟨0, 0, 0, "Low", [], hard_weight, soft_weight⟩ := rfl

/-! ## Claim C10 -/

/-- C10: every entry of the missing-skills list (both as returned by
`find_missing_skills` and inside the `ScoreResult`) is the lowercase-folded
form of a JD requirement entry: the list is a sublist of the concatenation of
the case-folded must-have and good-to-have lists, and each entry arises as
`pyLower` of some JD entry. -/
theorem c10_missing_skills_are_lowercased (softSim : String → String → ℚ) (raised : Bool)
    (jd_text resume_text : String) (jd_skills : PyDict) (hard_weight soft_weight : ℚ) :
    List.Sublist (find_missing_skills resume_text jd_skills)
        (((pyGet jd_skills "must_have").map pyLower) ++ ((pyGet jd_skills "good_to_have").map pyLower)) ∧
    List.Sublist
        (calculate_relevance_score softSim raised jd_text resume_text jd_skills hard_weight soft_weight).missing_skills
        (((pyGet jd_skills "must_have").map pyLower) ++ ((pyGet jd_skills "good_to_have").map pyLower)) ∧
    (∀ x ∈ find_missing_skills resume_text jd_skills,
      ∃ y, (y ∈ pyGet jd_skills "must_have" ∨ y ∈ pyGet jd_skills "good_to_have") ∧ x = pyLower y) := by
  have main : List.Sublist (find_missing_skills resume_text jd_skills)
      (((pyGet jd_skills "must_have").map pyLower) ++ ((pyGet jd_skills "good_to_have").map pyLower)) := by
    unfold find_missing_skills
    split_ifs with hguard
    · exact List.nil_sublist _
    · simp only [calculate_skill_match]
      split_ifs with hlen
      · exact (List.take_sublist _ _).trans
          (List.Sublist.append (List.filter_sublist _)
            ((List.take_sublist _ _).trans (List.filter_sublist _)))
      · exact (List.take_sublist _ _).trans
          ((List.filter_sublist _).trans (List.sublist_append_left _ _))
  refine ⟨main, ?_, ?_⟩
  · cases raised with
    | true => exact List.nil_sublist _
    | false => exact main
  · intro x hx
    have hx2 := main.subset hx
    rcases List.mem_append.mp hx2 with hcase | hcase
    · obtain ⟨y, hy, hxy⟩ := List.mem_map.mp hcase
      exact ⟨y, Or.inl hy, hxy.symm⟩
    · obtain ⟨y, hy, hxy⟩ := List.mem_map.mp hcase
      exact ⟨y, Or.inr hy, hxy.symm⟩

/-! ## JD keyword extraction (`extract_skills_with_keywords`)

The source applies `re.findall` with three families of patterns.  Each
pattern is compiled by hand into a matcher with Python's semantics:
leftmost-first scanning, alternatives tried in order with backtracking,
`(0x5c)b` word boundaries, non-overlapping matches resuming after each
match.  Word characters are `[A-Za-z0-9_]` (ASCII, all the source uses). -/

/-- Regex word character (`\w` over ASCII). -/
def isWordChar (c : Char) : Bool := c.isAlphanum || c = '_'

/-- Word test extended to "no character" (start or end of text): non-word. -/
def isWordOpt : Option Char → Bool
  | some c => isWordChar c
  | none => false

/-- Matcher for a bounded alternation pattern (the source's
`tech_patterns`): at the current position, the first alternative that is a
prefix of the remaining text and satisfies the word boundary on both sides
matches.  `prev` is the character immediately before the position. -/
def matchAltAt (alts : List (List Char)) (prev : Option Char) (s : List Char) :
    Option (List Char) :=
  alts.findSome? (fun alt =>
    if alt.isPrefixOf s
        && (isWordOpt prev != isWordOpt alt.head?)
        && (isWordOpt alt.getLast? != isWordOpt ((s.drop alt.length).head?))
    then some alt else none)

/-- Scanning loop for the alternation matcher (fuel-based; the fuel is the
text length, and every step consumes at least one character). -/
def findAllAltAux (alts : List (List Char)) : Nat → Option Char → List Char → List (List Char)
  | 0, _, _ => []
  | _ + 1, _, [] => []
  | fuel + 1, prev, c :: rest =>
    match matchAltAt alts prev (c :: rest) with
    | some alt => alt :: findAllAltAux alts fuel alt.getLast? ((c :: rest).drop alt.length)
    | none => findAllAltAux alts fuel (some c) rest

/-- Model of `re.findall` for one of the source's literal-alternation
patterns. -/
def reFindAllAlt (alts : List String) (text : String) : List String :=
  (findAllAltAux (alts.map String.data) text.data.length none text.data).map (fun l => ⟨l⟩)

/-- One unit `[A-Z][a-z]+` of the capitalized-words pattern; returns the
consumed characters and the remaining text. -/
def capUnit (l : List Char) : Option (List Char × List Char) :=
  match l with
  | [] => none
  | c :: rest =>
    if c.isUpper then
      let run := rest.takeWhile Char.isLower
      if run = [] then none else some (c :: run, rest.drop run.length)
    else none

/-- Greedy iteration of `(?:\s+[A-Z][a-z]+)*`: returns the list of consumed
units (each including its leading whitespace) and the remaining text. -/
def capUnits : Nat → List Char → List (List Char) × List Char
  | 0, l => ([], l)
  | fuel + 1, l =>
    let ws := l.takeWhile (fun c => isPySpace c)
    if ws = [] then ([], l)
    else
      match capUnit (l.drop ws.length) with
      | some (u, rest) =>
        let next := capUnits fuel rest
        ((ws ++ u) :: next.1, next.2)
      | none => ([], l)

/-- Attempt of the capitalized-words pattern at one position.  A failed final
word boundary makes the regex engine drop the last starred unit (after which
the boundary sits before whitespace and holds); shortening a `[a-z]+` run can
never restore a boundary, so no deeper backtracking is possible. -/
def capMatchAt (prev : Option Char) (l : List Char) : Option (List Char × List Char) :=
  if isWordOpt prev then none
  else
    match capUnit l with
    | none => none
    | some (u0, rest0) =>
      if isWordOpt rest0.head? then none
      else
        let more := capUnits rest0.length rest0
        if isWordOpt more.2.head? then
          match more.1.getLast? with
          | none => none
          | some lastu => some (u0 ++ more.1.dropLast.flatten, lastu ++ more.2)
        else some (u0 ++ more.1.flatten, more.2)

/-- Scanning loop for the capitalized-words pattern. -/
def capFindAux : Nat → Option Char → List Char → List (List Char)
  | 0, _, _ => []
  | _ + 1, _, [] => []
  | fuel + 1, prev, c :: rest =>
    match capMatchAt prev (c :: rest) with
    | some (m, rest2) => m :: capFindAux fuel m.getLast? rest2
    | none => capFindAux fuel (some c) rest

/-- Model of `re.findall` for the capitalized-words pattern
(`[A-Z][a-z]+` phrases joined by whitespace, word-bounded). -/
def reFindAllCapitalized (text : String) : List String :=
  (capFindAux text.data.length none text.data).map (fun l => ⟨l⟩)

/-- Greedy iteration of `(?:\.\d+)*` for the version-token pattern. -/
def verGroups : Nat → List Char → List (List Char) × List Char
  | 0, l => ([], l)
  | fuel + 1, l =>
    match l with
    | '.' :: rest =>
      let ds := rest.takeWhile Char.isDigit
      if ds = [] then ([], l)
      else
        let next := verGroups fuel (rest.drop ds.length)
        (('.' :: ds) :: next.1, next.2)
    | _ => ([], l)

/-- Attempt of the version-token pattern `\w+\s*\d+(?:\.\d+)*` with the
`\w+` part taking exactly `k` characters of `l`.  A failed final boundary
drops the last `.digits` group (leaving a `.` after the match, which
restores the boundary); shortening a digit run can never help. -/
def verAttempt (k : Nat) (l : List Char) : Option (List Char × List Char) :=
  let afterW := l.drop k
  let ws := afterW.takeWhile isPySpace
  let afterWs := afterW.drop ws.length
  let drun := afterWs.takeWhile Char.isDigit
  if drun = [] then none
  else
    let afterD := afterWs.drop drun.length
    let grs := verGroups afterD.length afterD
    if !(isWordOpt grs.2.head?) then some (l.take k ++ ws ++ drun ++ grs.1.flatten, grs.2)
    else
      match grs.1.getLast? with
      | some lastg => some (l.take k ++ ws ++ drun ++ grs.1.dropLast.flatten, lastg ++ grs.2)
      | none => none

/-- Backtracking over the greedy `\w+` length, from `k` characters down
to 1. -/
def verTryFrom : Nat → List Char → Option (List Char × List Char)
  | 0, _ => none
  | k + 1, l =>
    match verAttempt (k + 1) l with
    | some r => some r
    | none => verTryFrom k l

/-- Scanning loop for the version-token pattern. -/
def verFindAux : Nat → Option Char → List Char → List (List Char)
  | 0, _, _ => []
  | _ + 1, _, [] => []
  | fuel + 1, prev, c :: rest =>
    if !(isWordOpt prev) && isWordChar c then
      match verTryFrom ((c :: rest).takeWhile isWordChar).length (c :: rest) with
      | some (m, rest2) => m :: verFindAux fuel m.getLast? rest2
      | none => verFindAux fuel (some c) rest
    else verFindAux fuel (some c) rest

/-- Model of `re.findall` for the version-token pattern
(`\w+\s*\d+(?:\.\d+)*`, word-bounded). -/
def reFindAllVersion (text : String) : List String :=
  (verFindAux text.data.length none text.data).map (fun l => ⟨l⟩)

/-- The source's `tech_patterns`, each alternation expanded into its literal
alternatives in order (`node\.?js` expands greedily to `node.js` then
`nodejs`).  They are run over the lowercased text, so `re.IGNORECASE` is
inert and the literals are written lowercase as in the source. -/
def techPatterns : List (List String) :=
  [ ["react", "angular", "vue", "node.js", "nodejs", "express", "django", "flask", "spring", "laravel"],
    ["aws", "azure", "gcp", "docker", "kubernetes", "jenkins", "git", "github", "gitlab"],
    ["sql", "mysql", "postgresql", "mongodb", "redis", "elasticsearch"],
    ["python", "java", "javascript", "typescript", "c++", "c#", "go", "rust", "php", "ruby"],
    ["machine learning", "ml", "ai", "artificial intelligence", "deep learning", "nlp"],
    ["agile", "scrum", "kanban", "devops", "ci/cd", "microservices", "api", "rest", "graphql"],
    ["tableau", "power bi", "excel", "sql server", "oracle", "sap", "salesforce"],
    ["linux", "unix", "windows", "macos", "bash", "powershell", "shell scripting"] ]

/-- The source's `common_words` stop set. -/
def commonWords : List String :=
  ["the", "and", "or", "but", "in", "on", "at", "to", "for", "of", "with", "by", "a", "an"]

/-- Embedding of `skill_extractor.extract_additional_keywords`: tech-pattern
matches over the lowercased text (title-cased), capitalized phrases and
version tokens over the original text, filtered against the stop set and
two-character minimum, deduplicated. -/
def extract_additional_keywords (jd_text : String) : List String :=
  let text_lower := pyLower jd_text
  let kws1 := (techPatterns.map (fun alts => (reFindAllAlt alts text_lower).map pyTitle)).flatten
  let caps := reFindAllCapitalized jd_text
  let vers := reFindAllVersion jd_text
  let keywords := kws1 ++ caps ++ vers
  pySetList (keywords.filter (fun kw => !commonWords.contains (pyLower kw) && 2 < kw.length))

/-- Sentence-splitting characters of `re.split(r'[.!?]+', ...)`. -/
def isSentencePunct (c : Char) : Bool := c = '.' || c = '!' || c = '?'

/-- Fuel-based splitter for `re.split(r'[.!?]+', text)`: pieces between
maximal punctuation runs, including empty leading/trailing pieces. -/
def splitPunctAux : Nat → List Char → List Char → List String
  | 0, acc, _ => [⟨acc.reverse⟩]
  | _ + 1, acc, [] => [⟨acc.reverse⟩]
  | fuel + 1, acc, c :: rest =>
    if isSentencePunct c then
      (⟨acc.reverse⟩ : String) :: splitPunctAux fuel [] (rest.dropWhile isSentencePunct)
    else splitPunctAux fuel (c :: acc) rest

/-- Model of `re.split(r'[.!?]+', text)`. -/
def pySplitSentences (s : String) : List String := splitPunctAux (s.data.length + 1) [] s.data

/-- The source's obligation cue words. -/
def mustHaveKeywords : List String :=
  ["required", "must have", "essential", "mandatory", "necessary",
   "prerequisite", "minimum", "at least", "should have", "need",
   "critical", "important", "key", "core", "fundamental"]

/-- The source's discretionary cue words. -/
def goodToHaveKeywords : List String :=
  ["preferred", "nice to have", "bonus", "advantage", "plus",
   "desirable", "beneficial", "helpful", "would be great",
   "optional", "additional", "extra", "welcome"]

/-- JD skill requirement record (`must_have` and `good_to_have` lists). -/
structure SkillDict where
  must_have : List String
  good_to_have : List String
deriving Repr, DecidableEq

/-- The sentence-classification double loop of
`extract_skills_with_keywords`: per sentence, cue flags; per mentioned skill
occurring in the sentence, append to the must or good list (no duplicates,
obligation cue winning only in the absence of a discretionary cue). -/
def classifySentences (mentioned : List String) (sentences : List String) :
    List String × List String :=
  sentences.foldl (fun mg sentence =>
    let sl := pyLower sentence
    let isMust := mustHaveKeywords.any (fun k => strContainsStr sl k)
    let isGood := goodToHaveKeywords.any (fun k => strContainsStr sl k)
    mentioned.foldl (fun mg2 skill =>
      if strContainsStr sl (pyLower skill) then
        if isMust && !isGood then
          (if mg2.1.contains skill then mg2 else (mg2.1 ++ [skill], mg2.2))
        else if isGood then
          (if mg2.2.contains skill then mg2 else (mg2.1, mg2.2 ++ [skill]))
        else mg2
      else mg2) mg) ([], [])

/-- Embedding of `skill_extractor.extract_skills_with_keywords`: catalog and
pattern-based candidates, sentence classification by cue words, positional
fallback when both lists stay empty, padding of `must_have` with generic
soft skills up to 5 when it has fewer than 3 entries, truncation to 5/8. -/
def extract_skills_with_keywords (jd_text : String) : SkillDict :=
  let text_lower := pyLower jd_text
  let db_mentioned :=
    (TECH_SKILLS_DB.map (fun cat =>
      cat.2.filterMap (fun skill =>
        if strContainsStr text_lower (pyLower skill) then some (pyTitle skill) else none))).flatten
  let mentioned := pySetList (db_mentioned ++ extract_additional_keywords jd_text)
  let sentences := pySplitSentences jd_text
  let mg := classifySentences mentioned sentences
  let mg2 := if mg.1 = [] ∧ mg.2 = [] then (mentioned.take 5, (mentioned.drop 5).take 8) else mg
  let padded :=
    if mg2.1.length < 3 then
      ["Communication", "Problem Solving", "Teamwork"].foldl
        (fun m skill => if !m.contains skill && m.length < 5 then m ++ [skill] else m) mg2.1
    else mg2.1
  ⟨padded.take 5, mg2.2.take 8⟩

/-! ## AI-based JD extraction (`extract_skills_with_ai`, `extract_skills_from_jd`)

The Grok generation call and the JSON parse of its response are external
effects; their joint outcome is modelled by `AiCall`, one constructor per
source code path. -/

/-- Outcome of the AI generation call and response parse inside
`extract_skills_with_ai`: an exception anywhere in its body (`raises`), a
response with falsy `ok` or empty text (`notOk`), a JSON parse failure
(`badJson`), a parse producing something other than a dict with a
`must_have` key (`parsedNonDict`), or a parsed skills dict. -/
inductive AiCall where
  | raises : AiCall
  | notOk : AiCall
  | badJson : AiCall
  | parsedNonDict : AiCall
  | parsedDict : PyDict → AiCall

/-- Embedding of `skill_extractor.extract_skills_with_ai`: only a parsed
dict containing the key `must_have` produces skills (truncated to 5/8);
every failure path, including the handler for an internal exception,
returns the empty requirement. -/
def extract_skills_with_ai (call : AiCall) : SkillDict :=
  match call with
  | .parsedDict d =>
    if (List.find? (fun p => p.1 == "must_have") d).isSome then
      ⟨(pyGet d "must_have").take 5, (pyGet d "good_to_have").take 8⟩
    else ⟨[], []⟩
  | _ => ⟨[], []⟩

/-- Embedding of `skill_extractor.extract_skills_from_jd`.  `raised` models
"some exception was raised inside the try body", in which case the source's
handler retries keyword extraction and returns its result.  On the normal
path, the AI result is used only when it is available and its `must_have`
list is non-empty (`if ai_skills and ai_skills.get('must_have')`), the
keyword fallback otherwise. -/
def extract_skills_from_jd (call : AiCall) (raised : Bool) (jd_text : String)
    (use_ai : Bool) : SkillDict :=
  if pyBlank jd_text then ⟨[], []⟩
  else if raised then extract_skills_with_keywords jd_text
  else if use_ai then
    let ai_skills := extract_skills_with_ai call
    if ai_skills.must_have ≠ [] then ai_skills
    else extract_skills_with_keywords jd_text
  else extract_skills_with_keywords jd_text

/-! ## Claim C5 -/

/-- C5 counterexample: an internal exception during JD extraction does NOT
yield `must_have = [], good_to_have = []` — on input `"python"` with an
exception raised inside the try body, the handler re-runs keyword extraction
and returns a requirement whose `must_have` list is non-empty
(`["Python", "Communication", "Problem Solving", "Teamwork"]`). -/
theorem c5_counterexample :
    extract_skills_from_jd AiCall.raises true "python" true ≠ (⟨[], []⟩ : SkillDict) ∧
    extract_skills_from_jd AiCall.raises true "python" true
      = ⟨["Python", "Communication", "Problem Solving", "Teamwork"], []⟩ := by
  constructor
  · decide
  · decide

/-- C5 amended: JD skill extraction never raises to its caller (the
embedding is total for every fault/oracle value), but an internal exception
yields the deterministic KEYWORD-extraction result, not the empty
requirement: this holds both when the exception escapes the try body (the
handler re-runs keyword extraction) and when it occurs inside the AI
sub-extraction (which returns the empty requirement, whose empty `must_have`
then triggers the keyword fallback).  Only `extract_skills_with_ai` itself
yields `{must_have: [], good_to_have: []}` on its internal exception.
Resume skill extraction has no fallible step and never raises. -/
theorem c5_extraction_exception_behavior (jd_text : String) (use_ai : Bool) (call : AiCall) :
    extract_skills_from_jd call true jd_text use_ai
        = (if pyBlank jd_text then ⟨[], []⟩ else extract_skills_with_keywords jd_text) ∧
    extract_skills_from_jd AiCall.raises false jd_text use_ai
        = (if pyBlank jd_text then ⟨[], []⟩ else extract_skills_with_keywords jd_text) ∧
    extract_skills_with_ai AiCall.raises = ⟨[], []⟩ := by
  refine ⟨?_, ?_, rfl⟩
  · unfold extract_skills_from_jd
    split_ifs <;> simp_all
  · unfold extract_skills_from_jd extract_skills_with_ai
    split_ifs <;> simp_all

/-! ## Embeddings (`embeddings.py`): cosine similarity (claim C7)

Vectors are modelled over `ℝ` because `np.linalg.norm` takes a square
root. -/

/-- Sum of squares of a vector's entries. -/
noncomputable def sumSq (v : List ℝ) : ℝ := (v.map (fun x => x * x)).sum

/-- Model of `np.linalg.norm` (Euclidean norm). -/
noncomputable def npNorm (v : List ℝ) : ℝ := Real.sqrt (sumSq v)

/-- Model of `np.dot` on two equal-length 1-D arrays. -/
noncomputable def dotList (a b : List ℝ) : ℝ := (List.zipWith (fun x y => x * y) a b).sum

open Classical in
/-- Embedding of `embeddings.calculate_similarity`: `np.dot` raises on
mismatched 1-D shapes and the broad handler returns 0.0 (first branch);
otherwise 0.0 when either norm is zero, else the cosine clamped by
`max(0.0, min(1.0, ...))`. -/
noncomputable def calculate_similarity (embedding1 embedding2 : List ℝ) : ℝ :=
  if embedding1.length ≠ embedding2.length then 0
  else if npNorm embedding1 = 0 ∨ npNorm embedding2 = 0 then 0
  else max 0 (min 1 (dotList embedding1 embedding2 / (npNorm embedding1 * npNorm embedding2)))

/-- Embedding of `embeddings.calculate_batch_similarity`: index-wise
similarities over `range(min(len, len))`. -/
noncomputable def calculate_batch_similarity (embeddings1 embeddings2 : List (List ℝ)) : List ℝ :=
  (List.range (min embeddings1.length embeddings2.length)).map
    (fun i => calculate_similarity (embeddings1.getD i []) (embeddings2.getD i []))

open Classical in
/-- Spec-side cosine similarity clamped to `[0, 1]`, with 0 for a
zero-norm argument, following the claim's wording. -/
noncomputable def cosineClampedSpec (a b : List ℝ) : ℝ :=
  if npNorm a = 0 ∨ npNorm b = 0 then 0
  else max 0 (min 1 (dotList a b / (npNorm a * npNorm b)))

/-- Index-wise traversal over `range (min len len)` with `getD` is exactly
`zipWith`. -/
lemma range_min_getD_eq_zipWith {α β γ : Type} (f : α → β → γ) (dA : α) (dB : β) :
    ∀ (a : List α) (b : List β),
      (List.range (min a.length b.length)).map (fun i => f (a.getD i dA) (b.getD i dB))
        = List.zipWith f a b := by
  intro a
  induction a with
  | nil => intro b; simp
  | cons x xs ih =>
    intro b
    cases b with
    | nil => simp
    | cons y ys =>
      simp only [List.length_cons, Nat.succ_min_succ, List.range_succ_eq_map,
        List.map_cons, List.getD_cons_zero, List.map_map, List.zipWith_cons_cons]
      congr 1
      rw [← ih ys]
      apply List.map_congr_left
      intro i _
      simp [Function.comp]

/-! ## Claim C7 -/

/-- C7: for equal-length vectors, `calculate_similarity` returns the cosine
similarity clamped to `[0, 1]`; it returns exactly 0 whenever either vector
has zero norm (for any pair); and `calculate_batch_similarity` pairs the two
lists index-wise up to the shorter length (it is `zipWith`, total for
unequal lengths). -/
theorem c7_similarity_cosine_clamped (a b : List ℝ) (u v : List (List ℝ))
    (h : a.length = b.length) :
    calculate_similarity a b = cosineClampedSpec a b ∧
    (∀ c d : List ℝ, npNorm c = 0 ∨ npNorm d = 0 → calculate_similarity c d = 0) ∧
    calculate_batch_similarity u v = List.zipWith calculate_similarity u v := by
  refine ⟨?_, ?_, ?_⟩
  · unfold calculate_similarity cosineClampedSpec
    rw [if_neg (by simp [h])]
  · intro c d hcd
    unfold calculate_similarity
    by_cases hl : c.length ≠ d.length
    · rw [if_pos hl]
    · rw [if_neg hl, if_pos hcd]
  · unfold calculate_batch_similarity
    exact range_min_getD_eq_zipWith calculate_similarity [] [] u v

/-- C7 witness: the theorem applied at concrete vectors (equal lengths
discharged by `rfl`), together with a direct evaluation: the similarity of
`[1, 0]` with itself is 1. -/
theorem c7_similarity_witness :
    (([1, 0] : List ℝ).length = ([1, 0] : List ℝ).length) ∧
    (calculate_similarity [1, 0] [1, 0] = cosineClampedSpec [1, 0] [1, 0] ∧
      (∀ c d : List ℝ, npNorm c = 0 ∨ npNorm d = 0 → calculate_similarity c d = 0) ∧
      calculate_batch_similarity [[1, 0]] [[1, 0], [0, 1]]
        = List.zipWith calculate_similarity [[1, 0]] [[1, 0], [0, 1]]) ∧
    calculate_similarity [1, 0] [1, 0] = 1 := by
  refine ⟨rfl, c7_similarity_cosine_clamped [1, 0] [1, 0] [[1, 0]] [[1, 0], [0, 1]] rfl, ?_⟩
  have hnorm : npNorm [1, 0] = 1 := by
    simp [npNorm, sumSq]
  unfold calculate_similarity
  rw [if_neg (by simp), if_neg (by rw [hnorm]; norm_num), hnorm]
  simp [dotList]

/-! ## Embeddings (`embeddings.py`): the fallback chain (claim C8)

The external tiers (the Grok embedding service, the sentence-transformers
model, the scikit-learn TF-IDF/SVD pipeline, numpy's random generator) are
collaborators outside the repository and are modelled as oracles in an
environment record; `Except.error` means the library call raised. -/

/-- Result dict of `grok_client.grok_embeddings` (`ok` flag and vectors). -/
structure GrokEmbResp where
  ok : Bool
  embeddings : List (List ℚ)

/-- Environment of external effects for `get_embeddings`:
`grokImport` is whether importing the Grok client succeeds; `grokResp` the
response of `grok_embeddings` (which absorbs its own request errors);
`stImport` whether sentence-transformers is importable; `stResult` the model
inference outcome; `skResult` the TF-IDF/SVD outcome; `randVal` the entries
produced by `np.random.rand`; `outerExc` an exception escaping the try body
of `get_embeddings`. -/
structure EmbEnv where
  grokImport : Bool
  grokResp : List String → GrokEmbResp
  stImport : Bool
  stResult : List String → Except Unit (List (List ℚ))
  skResult : List String → Except Unit (List (List ℚ))
  randVal : Nat → Nat → ℚ
  outerExc : Bool

/-- Model of `np.random.rand(100).tolist()` for the i-th text: a vector of
exactly 100 entries drawn from the environment. -/
def npRandomRand100 (env : EmbEnv) (i : Nat) : List ℚ :=
  (List.range 100).map (env.randVal i)

/-- Embedding of `embeddings.get_tfidf_embeddings`: the scikit-learn
pipeline's output on success (per that library's contract, one
100-dimensional row per text — stated as a hypothesis where needed), and on
any exception one random 100-vector per text. -/
def get_tfidf_embeddings (env : EmbEnv) (texts : List String) : List (List ℚ) :=
  match env.skResult texts with
  | .ok m => m
  | .error _ => (List.range texts.length).map (fun i => npRandomRand100 env i)

/-- Embedding of `embeddings.get_sentence_transformer_embeddings`: model
inference when the library imports and the call succeeds; the TF-IDF
fallback both on `ImportError` and on any other exception. -/
def get_sentence_transformer_embeddings (env : EmbEnv) (texts : List String) : List (List ℚ) :=
  if env.stImport then
    match env.stResult texts with
    | .ok m => m
    | .error _ => get_tfidf_embeddings env texts
  else get_tfidf_embeddings env texts

/-- Embedding of `embeddings.get_embeddings`: empty input short-circuits;
an exception escaping the try body yields one 384-dimensional zero vector
per text; a Grok response with truthy `ok` is returned as-is; otherwise the
sentence-transformer tier (with its own fallbacks) runs. -/
def get_embeddings (env : EmbEnv) (texts : List String) : List (List ℚ) :=
  if texts = [] then []
  else if env.outerExc then texts.map (fun _ => List.replicate 384 (0 : ℚ))
  else if env.grokImport && (env.grokResp texts).ok then (env.grokResp texts).embeddings
  else get_sentence_transformer_embeddings env texts

/-! ## Claim C8 -/

/-- C8: for every non-empty list of texts, when the external embedding
service tier is unavailable (import failure or falsy `ok`) and the local
model tier is unavailable (import failure), `get_embeddings` never raises
(the embedding is total) and returns exactly one vector per input text, all
of one fixed dimension within the call — whether the lexical TF-IDF/SVD
tier succeeds (assumed, per scikit-learn's contract, to return one
100-dimensional row per text), the last-resort random tier runs, or the
outer exception handler fires. -/
theorem c8_embed_fallback_shape (env : EmbEnv) (texts : List String)
    (hne : texts ≠ [])
    (hgrok : env.grokImport = false ∨ (env.grokResp texts).ok = false)
    (hst : env.stImport = false)
    (hsk : ∀ m, env.skResult texts = .ok m → m.length = texts.length ∧ ∀ v ∈ m, v.length = 100) :
    (get_embeddings env texts).length = texts.length ∧
    ∃ dim, ∀ v ∈ get_embeddings env texts, v.length = dim := by
  unfold get_embeddings
  rw [if_neg hne]
  by_cases hexc : env.outerExc
  · rw [if_pos hexc]
    refine ⟨by simp only [List.length_map], 384, ?_⟩
    intro v hv
    obtain ⟨_, _, rfl⟩ := List.mem_map.mp hv
    simp only [List.length_replicate]
  · rw [if_neg (by simp [hexc]),
      if_neg (by rcases hgrok with hg | hg <;> simp [hg])]
    unfold get_sentence_transformer_embeddings
    rw [if_neg (by simp [hst])]
    unfold get_tfidf_embeddings
    cases hm : env.skResult texts with
    | ok m =>
      obtain ⟨hlen, hdim⟩ := hsk m hm
      exact ⟨hlen, 100, hdim⟩
    | error e =>
      refine ⟨by simp only [List.length_map, List.length_range], 100, ?_⟩
      intro v hv
      obtain ⟨i, _, rfl⟩ := List.mem_map.mp hv
      simp only [npRandomRand100, List.length_map, List.length_range]

/-- Concrete environment with every external tier unavailable, for the C8
witness. -/
def c8Env : EmbEnv :=
  ⟨false, fun _ => ⟨false, []⟩, false, fun _ => .error (), fun _ => .error (),
    fun _ _ => 0, false⟩

/-- C8 witness: the theorem applied to a concrete one-text input in the
all-tiers-unavailable environment. -/
theorem c8_embed_witness :
    (["a"] : List String) ≠ [] ∧
    ((get_embeddings c8Env ["a"]).length = (["a"] : List String).length ∧
      ∃ dim, ∀ v ∈ get_embeddings c8Env ["a"], v.length = dim) := by
  refine ⟨by simp, c8_embed_fallback_shape c8Env ["a"] (by simp) (Or.inl rfl) rfl ?_⟩
  intro m h
  simp [c8Env] at h

/-! ## Resume comparator (`resume_comparator.py`, claim C9)

`sorted(..., key=..., reverse=True)` in Python is a stable sort: descending
by key, ties kept in source order.  It is modelled by a left-to-right stable
insertion sort `pySortDesc`: each element is placed after every
already-placed element whose key is at least its own, which realises exactly
CPython's contract. -/

/-- Stable descending insertion: `x` goes after every element whose key is
at least `key x`. -/
def insDesc {α : Type} (key : α → ℚ) (x : α) : List α → List α
  | [] => [x]
  | y :: ys => if key x ≤ key y then y :: insDesc key x ys else x :: y :: ys

/-- Model of Python's `sorted(l, key=key, reverse=True)` (stable,
descending). -/
def pySortDesc {α : Type} (key : α → ℚ) (l : List α) : List α :=
  l.foldl (fun acc x => insDesc key x acc) []

lemma insDesc_perm {α : Type} (key : α → ℚ) (x : α) (l : List α) :
    List.Perm (insDesc key x l) (x :: l) := by
  induction l with
  | nil => exact List.Perm.refl _
  | cons y ys ih =>
    simp only [insDesc]
    by_cases hxy : key x ≤ key y
    · rw [if_pos hxy]
      exact (List.Perm.cons y ih).trans (List.Perm.swap x y ys)
    · rw [if_neg hxy]

lemma insDesc_pairwise {α : Type} (key : α → ℚ) (x : α) (l : List α)
    (h : l.Pairwise (fun a b => key b ≤ key a)) :
    (insDesc key x l).Pairwise (fun a b => key b ≤ key a) := by
  induction l with
  | nil => simp [insDesc]
  | cons y ys ih =>
    rw [List.pairwise_cons] at h
    simp only [insDesc]
    by_cases hxy : key x ≤ key y
    · rw [if_pos hxy, List.pairwise_cons]
      refine ⟨?_, ih h.2⟩
      intro z hz
      rcases List.mem_cons.mp ((insDesc_perm key x ys).mem_iff.mp hz) with rfl | hmem
      · exact hxy
      · exact h.1 z hmem
    · rw [if_neg hxy, List.pairwise_cons]
      refine ⟨?_, List.pairwise_cons.mpr h⟩
      intro z hz
      rcases List.mem_cons.mp hz with rfl | hmem
      · exact le_of_lt (lt_of_not_ge hxy)
      · exact le_trans (h.1 z hmem) (le_of_lt (lt_of_not_ge hxy))

lemma insDesc_filter_key {α : Type} (key : α → ℚ) (q : ℚ) (x : α) (l : List α)
    (h : l.Pairwise (fun a b => key b ≤ key a)) :
    (insDesc key x l).filter (fun z => decide (key z = q))
      = l.filter (fun z => decide (key z = q)) ++ (if key x = q then [x] else []) := by
  induction l with
  | nil =>
    simp only [insDesc, List.filter_nil, List.nil_append]
    by_cases hx : key x = q <;> simp [hx]
  | cons y ys ih =>
    rw [List.pairwise_cons] at h
    simp only [insDesc]
    by_cases hxy : key x ≤ key y
    · rw [if_pos hxy, List.filter_cons, List.filter_cons, ih h.2]
      by_cases hy : key y = q <;> simp [hy]
    · have hyx : key y < key x := lt_of_not_ge hxy
      rw [if_neg hxy, List.filter_cons]
      by_cases hx : key x = q
      · have hnil : List.filter (fun z => decide (key z = q)) (y :: ys) = [] := by
          rw [List.filter_eq_nil_iff]
          intro a ha
          have hlt : key a < key x := by
            rcases List.mem_cons.mp ha with rfl | hmem
            · exact hyx
            · exact lt_of_le_of_lt (h.1 a hmem) hyx
          simp only [decide_eq_true_eq]
          intro hq
          rw [hq, hx] at hlt
          exact lt_irrefl q hlt
        simp [hx, hnil]
      · simp [hx]

lemma pySortFold_pairwise {α : Type} (key : α → ℚ) :
    ∀ (l acc : List α), acc.Pairwise (fun a b => key b ≤ key a) →
      (List.foldl (fun a x => insDesc key x a) acc l).Pairwise (fun a b => key b ≤ key a) := by
  intro l
  induction l with
  | nil => intro acc h; exact h
  | cons x xs ih =>
    intro acc h
    simp only [List.foldl_cons]
    exact ih _ (insDesc_pairwise key x acc h)

lemma pySortFold_perm {α : Type} (key : α → ℚ) :
    ∀ (l acc : List α),
      List.Perm (List.foldl (fun a x => insDesc key x a) acc l) (acc ++ l) := by
  intro l
  induction l with
  | nil => intro acc; simp
  | cons x xs ih =>
    intro acc
    simp only [List.foldl_cons]
    refine (ih (insDesc key x acc)).trans ?_
    refine (List.Perm.append_right xs (insDesc_perm key x acc)).trans ?_
    simp only [List.cons_append]
    exact List.perm_middle.symm

lemma pySortFold_filter {α : Type} (key : α → ℚ) (q : ℚ) :
    ∀ (l acc : List α), acc.Pairwise (fun a b => key b ≤ key a) →
      (List.foldl (fun a x => insDesc key x a) acc l).filter (fun z => decide (key z = q))
        = acc.filter (fun z => decide (key z = q)) ++ l.filter (fun z => decide (key z = q)) := by
  intro l
  induction l with
  | nil => intro acc h; simp
  | cons x xs ih =>
    intro acc h
    simp only [List.foldl_cons]
    rw [ih _ (insDesc_pairwise key x acc h), insDesc_filter_key key q x acc h, List.filter_cons]
    by_cases hx : key x = q <;> simp [hx, List.append_assoc]

lemma pySortDesc_perm {α : Type} (key : α → ℚ) (l : List α) :
    List.Perm (pySortDesc key l) l := by
  unfold pySortDesc
  simpa using pySortFold_perm key l []

lemma pySortDesc_pairwise {α : Type} (key : α → ℚ) (l : List α) :
    (pySortDesc key l).Pairwise (fun a b => key b ≤ key a) :=
  pySortFold_pairwise key l [] List.Pairwise.nil

lemma pySortDesc_filter_key {α : Type} (key : α → ℚ) (q : ℚ) (l : List α) :
    (pySortDesc key l).filter (fun z => decide (key z = q))
      = l.filter (fun z => decide (key z = q)) := by
  unfold pySortDesc
  simpa using pySortFold_filter key q l [] List.Pairwise.nil

/-- Model of Python's `max` on a list (callers guard non-emptiness; the
source raises on an empty list, here an inert 0 placeholder). -/
def pyMaxQ : List ℚ → ℚ
  | [] => 0
  | x :: xs => xs.foldl max x

/-- Model of Python's `min` on a list (same convention as `pyMaxQ`). -/
def pyMinQ : List ℚ → ℚ
  | [] => 0
  | x :: xs => xs.foldl min x

lemma le_foldl_max : ∀ (xs : List ℚ) (x : ℚ), x ≤ xs.foldl max x := by
  intro xs
  induction xs with
  | nil => intro x; exact le_refl x
  | cons y ys ih => intro x; exact le_trans (le_max_left x y) (ih (max x y))

lemma mem_le_foldl_max : ∀ (xs : List ℚ) (x s : ℚ), s ∈ xs → s ≤ xs.foldl max x := by
  intro xs
  induction xs with
  | nil => intro x s hs; simp at hs
  | cons y ys ih =>
    intro x s hs
    rcases List.mem_cons.mp hs with rfl | hmem
    · exact le_trans (le_max_right x s) (le_foldl_max ys (max x s))
    · exact ih (max x y) s hmem

lemma foldl_max_mem : ∀ (xs : List ℚ) (x : ℚ), xs.foldl max x = x ∨ xs.foldl max x ∈ xs := by
  intro xs
  induction xs with
  | nil => intro x; left; rfl
  | cons y ys ih =>
    intro x
    rcases ih (max x y) with h | h
    · rcases max_choice x y with hm | hm
      · left; rw [List.foldl_cons, h, hm]
      · right; rw [List.foldl_cons, h, hm]; exact List.mem_cons_self y ys
    · right; exact List.mem_cons_of_mem y (by rw [List.foldl_cons]; exact h)

lemma foldl_min_le : ∀ (xs : List ℚ) (x : ℚ), xs.foldl min x ≤ x := by
  intro xs
  induction xs with
  | nil => intro x; exact le_refl x
  | cons y ys ih => intro x; exact le_trans (ih (min x y)) (min_le_left x y)

lemma foldl_min_le_of_mem : ∀ (xs : List ℚ) (x s : ℚ), s ∈ xs → xs.foldl min x ≤ s := by
  intro xs
  induction xs with
  | nil => intro x s hs; simp at hs
  | cons y ys ih =>
    intro x s hs
    rcases List.mem_cons.mp hs with rfl | hmem
    · exact le_trans (foldl_min_le ys (min x s)) (min_le_right x s)
    · exact ih (min x y) s hmem

lemma foldl_min_mem : ∀ (xs : List ℚ) (x : ℚ), xs.foldl min x = x ∨ xs.foldl min x ∈ xs := by
  intro xs
  induction xs with
  | nil => intro x; left; rfl
  | cons y ys ih =>
    intro x
    rcases ih (min x y) with h | h
    · rcases min_choice x y with hm | hm
      · left; rw [List.foldl_cons, h, hm]
      · right; rw [List.foldl_cons, h, hm]; exact List.mem_cons_self y ys
    · right; exact List.mem_cons_of_mem y (by rw [List.foldl_cons]; exact h)

lemma pyMaxQ_mem (l : List ℚ) (h : l ≠ []) : pyMaxQ l ∈ l := by
  cases l with
  | nil => exact absurd rfl h
  | cons x xs =>
    rcases foldl_max_mem xs x with he | he
    · rw [pyMaxQ, he]; exact List.mem_cons_self x xs
    · exact List.mem_cons_of_mem x (by rw [pyMaxQ]; exact he)

lemma le_pyMaxQ (l : List ℚ) (s : ℚ) (hs : s ∈ l) : s ≤ pyMaxQ l := by
  cases l with
  | nil => simp at hs
  | cons x xs =>
    rcases List.mem_cons.mp hs with rfl | hmem
    · exact le_foldl_max xs s
    · exact mem_le_foldl_max xs x s hmem

lemma pyMinQ_mem (l : List ℚ) (h : l ≠ []) : pyMinQ l ∈ l := by
  cases l with
  | nil => exact absurd rfl h
  | cons x xs =>
    rcases foldl_min_mem xs x with he | he
    · rw [pyMinQ, he]; exact List.mem_cons_self x xs
    · exact List.mem_cons_of_mem x (by rw [pyMinQ]; exact he)

lemma pyMinQ_le (l : List ℚ) (s : ℚ) (hs : s ∈ l) : pyMinQ l ≤ s := by
  cases l with
  | nil => simp at hs
  | cons x xs =>
    rcases List.mem_cons.mp hs with rfl | hmem
    · exact foldl_min_le xs s
    · exact foldl_min_le_of_mem xs x s hmem

/-- Model of `np.mean`. -/
def listMeanQ (l : List ℚ) : ℚ := l.sum / l.length

/-- Population variance, the quantity under `np.std`'s square root. -/
def listVarQ (l : List ℚ) : ℚ :=
  ((l.map (fun s => (s - listMeanQ l) ^ 2)).sum) / l.length

/-- Model of `np.std` (population standard deviation). -/
noncomputable def npStd (l : List ℚ) : ℝ := Real.sqrt ((listVarQ l : ℚ) : ℝ)

open Classical in
/-- Python's integer `round` (banker's rounding) on our real model. -/
noncomputable def pyRoundHalfEvenR (x : ℝ) : ℤ :=
  let n := ⌊x⌋
  let frac := x - n
  if frac < 1 / 2 then n
  else if 1 / 2 < frac then n + 1
  else if Even n then n else n + 1

/-- Python's `round(x, 2)` on reals. -/
noncomputable def pyRound2R (x : ℝ) : ℝ := (pyRoundHalfEvenR (100 * x) : ℝ) / 100

/-- Per-resume analysis record as consumed by `compare_resumes` (the fields
it reads with `.get`). -/
structure ResumeRecord where
  resume_file : String
  final_score : ℚ
  verdict : String
  hard_pct : ℚ
  soft_pct : ℚ
  missing_skills : List String
deriving Repr, DecidableEq

/-- One entry of the comparator's `rankings` list. -/
structure RankEntry where
  rank : Nat
  resume_file : String
  final_score : ℚ
  verdict : String
  hard_pct : ℚ
  soft_pct : ℚ
deriving Repr, DecidableEq

/-- The comparator's `score_analysis` sub-dict. -/
structure ScoreAnalysis where
  average_score : ℚ
  highest_score : ℚ
  lowest_score : ℚ
  score_std : ℝ
  score_range : ℚ

/-- The comparator's result record.  The free-text `insights` and
`recommendations` fields of the source are narrative strings outside every
claim and are not modelled; `comparison_date` (wall-clock `datetime.now()`)
is passed in as a parameter. -/
structure ComparisonReport where
  total_resumes : Nat
  comparison_date : String
  job_description : String
  score_analysis : ScoreAnalysis
  rankings : List RankEntry
  verdict_distribution : List (String × Nat)
  common_missing_skills : List (String × Nat)

/-- Truncation `jd_text[:200] + "..."` applied to long job descriptions. -/
def pyTruncateJd (jd : String) : String :=
  if 200 < jd.length then (⟨jd.data.take 200⟩ : String) ++ "..." else jd

/-- The comparator's verdict histogram `{v: verdicts.count(v) for v in
set(verdicts)}` (set order modelled deterministically by `dedup`; claims
use only membership). -/
def verdictDistribution (verdicts : List String) : List (String × Nat) :=
  verdicts.dedup.map (fun v => (v, verdicts.count v))

/-- The comparator's aggregated missing-skill frequency table: counts over
all records' missing skills, sorted by count descending (stable), top 10;
the source omits the key entirely when no skills are missing, modelled as
an empty list. -/
def commonMissingSkills (resume_results : List ResumeRecord) : List (String × Nat) :=
  let all := (resume_results.map (fun r => r.missing_skills)).flatten
  if all = [] then []
  else (pySortDesc (fun p : String × Nat => (p.2 : ℚ))
    (all.dedup.map (fun sk => (sk, all.count sk)))).take 10

/-- Embedding of `resume_comparator.compare_resumes`.  The source returns
the empty dict `{}` for an empty batch (and its pure body cannot raise), so
the result is an `Option`; otherwise: batch statistics over `final_score`
(mean and std rounded to 2), stable descending ranking decorated with ranks
from 1, verdict histogram and missing-skill frequency table. -/
noncomputable def compare_resumes (now : String) (resume_results : List ResumeRecord)
    (jd_text : String) : Option ComparisonReport :=
  if resume_results = [] then none
  else
    let scores := resume_results.map (fun r => r.final_score)
    let ranked := pySortDesc (fun r : ResumeRecord => r.final_score) resume_results
    some ⟨resume_results.length, now, pyTruncateJd jd_text,
      ⟨pyRound2 (listMeanQ scores), pyMaxQ scores, pyMinQ scores,
        pyRound2R (npStd scores), pyMaxQ scores - pyMinQ scores⟩,
      ranked.enum.map (fun p =>
        ⟨p.1 + 1, p.2.resume_file, p.2.final_score, p.2.verdict, p.2.hard_pct, p.2.soft_pct⟩),
      verdictDistribution (resume_results.map (fun r => r.verdict)),
      commonMissingSkills resume_results⟩

/-- Rounding an integer value to 2 decimal places returns it unchanged. -/
lemma pyRound2_intCast (n : ℤ) : pyRound2 ((n : ℚ)) = (n : ℚ) := by
  simp only [pyRound2, pyRoundHalfEven]
  rw [show (100 : ℚ) * (n : ℚ) = ((100 * n : ℤ) : ℚ) by push_cast; ring]
  rw [Int.floor_intCast]
  simp only [sub_self]
  rw [if_pos (by norm_num)]
  push_cast
  field_simp

/-! ## Claim C9 -/

/-- C9: for every non-empty batch, `compare_resumes` returns a report whose
`average_score` is the (2-decimal-rounded) mean of the final scores, whose
`highest_score`/`lowest_score` are the maximum/minimum, whose `score_std` is
the rounded population standard deviation, whose `rankings` decorate (with
ranks from 1) a list that is a permutation of the batch, descending in
`final_score`, with ties kept in source order (the filter at each score
value equals the source filter), and whose verdict histogram contains the
count of every verdict present in the batch. -/
theorem c9_compare_resumes_report (now jd_text : String)
    (resume_results : List ResumeRecord) (h : resume_results ≠ []) :
    ∃ rpt, compare_resumes now resume_results jd_text = some rpt ∧
      rpt.score_analysis.average_score
        = pyRound2 (listMeanQ (resume_results.map (fun r => r.final_score))) ∧
      (rpt.score_analysis.highest_score ∈ resume_results.map (fun r => r.final_score) ∧
        ∀ s ∈ resume_results.map (fun r => r.final_score), s ≤ rpt.score_analysis.highest_score) ∧
      (rpt.score_analysis.lowest_score ∈ resume_results.map (fun r => r.final_score) ∧
        ∀ s ∈ resume_results.map (fun r => r.final_score), rpt.score_analysis.lowest_score ≤ s) ∧
      rpt.score_analysis.score_std
        = pyRound2R (npStd (resume_results.map (fun r => r.final_score))) ∧
      (∃ ranked : List ResumeRecord,
        List.Perm ranked resume_results ∧
        ranked.Pairwise (fun a b => b.final_score ≤ a.final_score) ∧
        (∀ q : ℚ, ranked.filter (fun r => decide (r.final_score = q))
            = resume_results.filter (fun r => decide (r.final_score = q))) ∧
        rpt.rankings = ranked.enum.map (fun p =>
          ⟨p.1 + 1, p.2.resume_file, p.2.final_score, p.2.verdict, p.2.hard_pct, p.2.soft_pct⟩)) ∧
      (∀ v ∈ resume_results.map (fun r => r.verdict),
        (v, (resume_results.map (fun r => r.verdict)).count v) ∈ rpt.verdict_distribution) := by
  have hmapne : resume_results.map (fun r => r.final_score) ≠ [] := by
    intro hmap
    exact h (List.map_eq_nil_iff.mp hmap)
  simp only [compare_resumes]
  rw [if_neg h]
  refine ⟨_, rfl, rfl, ?_, ?_, rfl, ?_, ?_⟩
  · exact ⟨pyMaxQ_mem _ hmapne, fun s hs => le_pyMaxQ _ s hs⟩
  · exact ⟨pyMinQ_mem _ hmapne, fun s hs => pyMinQ_le _ s hs⟩
  · exact ⟨pySortDesc (fun r : ResumeRecord => r.final_score) resume_results,
      pySortDesc_perm _ _, pySortDesc_pairwise _ _,
      fun q => pySortDesc_filter_key _ q _, rfl⟩
  · intro v hv
    simp only [verdictDistribution]
    exact List.mem_map.mpr ⟨v, List.mem_dedup.mpr hv, rfl⟩

/-- The comparator test fixture's first record (score 85, High). -/
def c9r1 : ResumeRecord := ⟨"resume1.pdf", 85, "High", 80, 90, ["AWS", "Docker"]⟩

/-- The comparator test fixture's second record (score 65, Medium). -/
def c9r2 : ResumeRecord := ⟨"resume2.pdf", 65, "Medium", 70, 60, ["Python", "Machine Learning"]⟩

/-- C9 witness: the theorem applied to the two-record batch with final
scores 85 and 65; concretely, the average is 75.0, rank 1 is the 85-score
record, and the verdict histogram counts both verdicts. -/
theorem c9_compare_witness :
    ([c9r1, c9r2] : List ResumeRecord) ≠ [] ∧
    (∃ rpt, compare_resumes "2024-01-01T00:00:00" [c9r1, c9r2]
        "Python developer with ML experience" = some rpt ∧
      rpt.score_analysis.average_score = 75 ∧
      rpt.rankings.head? = some ⟨1, "resume1.pdf", 85, "High", 80, 90⟩ ∧
      ("High", 1) ∈ rpt.verdict_distribution ∧
      ("Medium", 1) ∈ rpt.verdict_distribution) := by
  refine ⟨by simp, ?_⟩
  obtain ⟨rpt, heq, havg, hmax, hmin, hstd, hrank, hdist⟩ :=
    c9_compare_resumes_report "2024-01-01T00:00:00" "Python developer with ML experience"
      [c9r1, c9r2] (by simp)
  have hv : ∀ r, compare_resumes "2024-01-01T00:00:00" [c9r1, c9r2]
      "Python developer with ML experience" = some r →
      r.rankings.head? = some ⟨1, "resume1.pdf", 85, "High", 80, 90⟩ ∧
      ("High", 1) ∈ r.verdict_distribution ∧ ("Medium", 1) ∈ r.verdict_distribution := by
    intro r hr
    simp only [compare_resumes] at hr
    rw [if_neg (by simp)] at hr
    injection hr with h2
    subst h2
    exact ⟨by decide, by decide, by decide⟩
  obtain ⟨hh, hd1, hd2⟩ := hv rpt heq
  refine ⟨rpt, heq, ?_, hh, hd1, hd2⟩
  rw [havg]
  have hm : listMeanQ (List.map (fun r => r.final_score) [c9r1, c9r2]) = ((75 : ℤ) : ℚ) := by
    simp [listMeanQ, c9r1, c9r2]
    norm_num
  rw [hm, pyRound2_intCast]
  norm_num
